import Mathlib

/-!
Verification of the listmonk authentication and authorization core.

Shallow embedding of two source files:
* cmd auth handlers (src/unnamed/part_000): handleOIDCLogin, handleOIDCFinish,
  doLogin, plus utils.GenerateRandomString (same file, utils package part).
* src/internal/core/users.go: GetUser, LoginUser, getUsers (permission
  expansion).

External collaborators (database query results, the OIDC token exchange,
session creation) are passed in as explicit oracle values, so every
definition is an executable function of its inputs. Wall-clock time in
doLogin is modelled by passing in the measured elapsed duration of the
store call and returning the requested sleep duration.
-/

namespace Listmonk

/-- Model of echo.HTTPError: an HTTP status code plus a localized message. -/
structure HTTPError where
  status : Nat
  message : String
deriving DecidableEq, Repr

/-- Model of a low-level database error from a query: sql.ErrNoRows or any
other driver error. -/
inductive SQLErr where
  | noRows
  | other (msg : String)
deriving DecidableEq, Repr

/-- Model of models.UserType: the user type strings in the database. -/
inductive UserType where
  | user
  | api
deriving DecidableEq, Repr

/-- Model of models.ListPermission: one per-resource (list-scoped) grant,
a resource identifier plus its permission strings. -/
structure ListPermission where
  id : Nat
  permissions : List String
deriving DecidableEq, Repr

/-- Model of a models.User row as scanned from the database, before the
expansion loop in getUsers runs. ListsPermsRaw is the raw JSON payload;
since the embedding cannot run a JSON decoder on bytes, the field carries
the outcome json.Unmarshal would produce on it: none models a nil payload,
some (Except.error e) a payload whose decoding fails with message e, and
some (Except.ok l) a payload decoding to the grant list l. -/
structure UserRow where
  id : Nat
  username : String
  email : Option String
  name : String
  rowType : UserType
  passwordLogin : Bool
  password : String
  status : String
  roleID : Nat
  roleName : String
  rolePerms : List String
  listsPermsRaw : Option (Except String (List ListPermission))
deriving Repr

/-- Model of models.Role as filled in by getUsers. -/
structure Role where
  id : Nat
  name : String
  permissions : List String
  lists : List ListPermission
deriving DecidableEq, Repr

/-- Model of the expanded models.User produced by getUsers: Go string-keyed
sets (map to struct) become duplicate-free lists observed by membership,
and the int-keyed map of permission sets becomes an association list with
overwrite-on-insert semantics. loggedPermParseError records whether the
loop logged a JSON unmarshal failure for this row. -/
structure User where
  id : Nat
  username : String
  email : Option String
  name : String
  rowType : UserType
  passwordLogin : Bool
  password : String
  hasPassword : Bool
  status : String
  roleID : Nat
  role : Role
  permissionsMap : List String
  listPermissionsMap : List (Nat × List String)
  loggedPermParseError : Bool
deriving Repr

/-- Insertion into a Go map used as a set (map to empty struct): inserting a
present key leaves the map unchanged. -/
def setInsert (m : List String) (p : String) : List String :=
  if p ∈ m then m else m ++ [p]

/-- The loop building PermissionsMap: insert every permission string in
order into an initially empty set. -/
def buildSet (l : List String) : List String :=
  l.foldl setInsert []

/-- Insertion into a Go int-keyed map: assigning to a present key overwrites
its value in place. -/
def mapInsert (m : List (Nat × List String)) (k : Nat) (v : List String) :
    List (Nat × List String) :=
  match m with
  | [] => [(k, v)]
  | (k2, v2) :: rest =>
    if k2 = k then (k, v) :: rest else (k2, v2) :: mapInsert rest k v

/-- Lookup in the int-keyed map model. -/
def mapLookup (m : List (Nat × List String)) (k : Nat) : Option (List String) :=
  match m with
  | [] => none
  | (k2, v) :: rest => if k2 = k then some v else mapLookup rest k

/-- The loop building ListPermissionsMap: for each grant, assign a fresh
inner set of its permission strings at its resource identifier. -/
def buildListPermsMap (l : List ListPermission) : List (Nat × List String) :=
  l.foldl (fun m p => mapInsert m p.id (buildSet p.permissions)) []

/-- The grant list the loop works with: empty for a nil payload, empty
(with a log line) on an unmarshal failure, the decoded list otherwise. -/
def parsedListPerms (u : UserRow) : List ListPermission :=
  match u.listsPermsRaw with
  | none => []
  | some (Except.error _) => []
  | some (Except.ok l) => l

/-- Whether the loop logs an unmarshal failure for this row. -/
def permParseLogged (u : UserRow) : Bool :=
  match u.listsPermsRaw with
  | some (Except.error _) => true
  | _ => false

/-- Body of the per-row expansion loop in getUsers (users.go lines 151-190):
derive HasPassword and force PasswordLogin from a non-empty password, scrub
the email of API-type users, decode the raw grants, fill the Role, zero the
flat RoleID, and build the two lookup maps. -/
def expandUser (u : UserRow) : User :=
  let hasPassword := if u.password ≠ "" then true else false
  let passwordLogin := if u.password ≠ "" then true else u.passwordLogin
  let email := if u.rowType = UserType.api then none else u.email
  let listPerms := parsedListPerms u
  { id := u.id
    username := u.username
    email := email
    name := u.name
    rowType := u.rowType
    passwordLogin := passwordLogin
    password := u.password
    hasPassword := hasPassword
    status := u.status
    roleID := 0
    role := { id := u.roleID, name := u.roleName,
              permissions := u.rolePerms, lists := listPerms }
    permissionsMap := buildSet u.rolePerms
    listPermissionsMap := buildListPermsMap listPerms
    loggedPermParseError := permParseLogged u }

/-- Errors getUsers and GetUser can produce, plus a sentinel for the
out-of-bounds panic that indexing an empty slice would raise. -/
inductive CoreErr where
  | fetch (msg : String)
  | notFound
  | outOfBounds
deriving DecidableEq, Repr

/-- Model of Core.getUsers (users.go lines 140-194). The database select is
an oracle: an SQLErr or the scanned rows. A select error becomes a wrapped
fetch error, zero rows become the user-not-found error, and otherwise every
row is expanded in place. -/
def getUsers (sel : Except SQLErr (List UserRow)) :
    Except CoreErr (List User) :=
  match sel with
  | Except.error _ => Except.error (CoreErr.fetch ("globals.messages.errorFetching users"))
  | Except.ok rows =>
    match rows with
    | [] => Except.error CoreErr.notFound
    | _ => Except.ok (rows.map expandUser)

/-- Model of Core.GetUser (users.go lines 24-32). The query function q maps
the (id, username, lowercased email) filter to the select outcome. Any
getUsers error is wrapped as a 500 fetch error; on success the code takes
element 0 of the list, modelled by a match whose empty case yields the
outOfBounds sentinel standing for the runtime panic. -/
def GetUser (q : Nat → String → String → Except SQLErr (List UserRow))
    (id : Nat) (username email : String) : Except CoreErr User :=
  match getUsers (q id username email.toLower) with
  | Except.error _ => Except.error (CoreErr.fetch ("globals.messages.errorFetching users"))
  | Except.ok out =>
    match out with
    | [] => Except.error CoreErr.outOfBounds
    | u :: _ => Except.ok u

/-- Model of Core.LoginUser (users.go lines 125-138). The single
verify-and-fetch query is an oracle: sql.ErrNoRows becomes a 403 with the
deliberately unspecific invalid-login message, any other driver error a
500, and a scanned row is returned as is. -/
def LoginUser (store : Except SQLErr UserRow) : Except HTTPError UserRow :=
  match store with
  | Except.error SQLErr.noRows =>
    Except.error { status := 403, message := "users.invalidLogin" }
  | Except.error (SQLErr.other _) =>
    Except.error { status := 500, message := "globals.messages.errorFetching users" }
  | Except.ok u => Except.ok u

/-- Modelled from the spec: strHasLen and the shared constant
stdInputMaxLen are repository code outside src (only doLogin calls them
here). Per the spec, a field passes when its character count lies in the
inclusive min..max range. -/
def strHasLen (s : String) (lo hi : Nat) : Bool :=
  lo ≤ s.length && s.length ≤ hi

/-- Modelled from the spec: utils.SanitizeURI is repository code outside
src. Per the spec, next values that are absolute URLs or contain
scheme or host components are rewritten to the root path, while relative
paths pass through unchanged. -/
def SanitizeURI (u : String) : String :=
  if u.startsWith ("/") && !(u.startsWith ("//")) then u else "/"

/-- Modelled from the spec: the default landing path substituted for the
root path, called uriAdmin in the handlers. -/
def uriAdmin : String := "/admin"

/-- Model of strings.TrimSpace from the Go standard library: drop
whitespace characters from both ends of the string. -/
def trimSpace (s : String) : String :=
  String.mk (((s.toList.dropWhile Char.isWhitespace).reverse.dropWhile
    Char.isWhitespace).reverse)

/-- Outcome of one doLogin call: the handler result, whether the
verify-and-fetch store query was issued, and how long the handler asks to
sleep, in nanoseconds (time.Sleep takes nanoseconds; time.Duration of an
integer n is n nanoseconds). -/
structure LoginOutcome where
  result : Except HTTPError Unit
  storeQueried : Bool
  sleepNs : Nat
deriving Repr

/-- Model of doLogin (part_000 lines 179-221). The request carries the
nonce cookie and form nonce, but the CSRF comparison in the source is
commented out, so neither value is consulted. The username and password
are trimmed and length-checked before any store access. The store query
outcome and its measured elapsed time in milliseconds are oracles, as is
session creation. After a successful store call the source computes
elapsedMs and, when it is below 100, calls time.Sleep on
time.Duration(elapsedMs), which is elapsedMs nanoseconds. On a failed
store call the source returns before reaching the sleep. -/
def doLogin (maxLen : Nat) (cookieNonce : Option String) (formNonce : String)
    (usernameForm passwordForm : String)
    (store : Except SQLErr UserRow) (elapsedMs : Nat)
    (setSession : Except HTTPError Unit) : LoginOutcome :=
  let _ := cookieNonce
  let _ := formNonce
  let username := trimSpace usernameForm
  let password := trimSpace passwordForm
  if !(strHasLen username 3 maxLen) then
    { result := Except.error { status := 400, message := "globals.messages.invalidFields username" }
      storeQueried := false, sleepNs := 0 }
  else if !(strHasLen password 8 maxLen) then
    { result := Except.error { status := 400, message := "globals.messages.invalidFields password" }
      storeQueried := false, sleepNs := 0 }
  else
    match LoginUser store with
    | Except.error e =>
      { result := Except.error e, storeQueried := true, sleepNs := 0 }
    | Except.ok _ =>
      let sleepNs := if elapsedMs < 100 then elapsedMs else 0
      match setSession with
      | Except.error e =>
        { result := Except.error e, storeQueried := true, sleepNs := sleepNs }
      | Except.ok _ =>
        { result := Except.ok (), storeQueried := true, sleepNs := sleepNs }

/-- Total wall-clock nanoseconds doLogin spends from just before the store
call to return: the measured elapsed store time plus the requested sleep.
Work outside that window only adds to this lower bound. -/
def doLoginTotalNs (maxLen : Nat) (cookieNonce : Option String)
    (formNonce : String) (usernameForm passwordForm : String)
    (store : Except SQLErr UserRow) (elapsedMs : Nat)
    (setSession : Except HTTPError Unit) : Nat :=
  elapsedMs * 1000000 +
    (doLogin maxLen cookieNonce formNonce usernameForm passwordForm
      store elapsedMs setSession).sleepNs

/-- Result of handleOIDCLogin: an HTTP 401 error, or a 302 redirect to the
provider authorization URL. -/
inductive OIDCLoginResult where
  | unauthorized (msg : String)
  | redirect (url : String)
deriving DecidableEq, Repr

/-- Model of handleOIDCLogin (part_000 lines 61-76). The nonce cookie is
none when absent. The provider authorization URL construction is an oracle
function of the sanitized next URI and the nonce. -/
def handleOIDCLogin (getOIDCAuthURL : String → String → String)
    (cookieNonce : Option String) (formNonce nextForm : String) :
    OIDCLoginResult :=
  match cookieNonce with
  | none => OIDCLoginResult.unauthorized ("users.invalidRequest")
  | some v =>
    if v = "" || v ≠ formNonce then
      OIDCLoginResult.unauthorized ("users.invalidRequest")
    else
      let next := SanitizeURI nextForm
      let next := if next = "/" then uriAdmin else next
      OIDCLoginResult.redirect (getOIDCAuthURL next v)

/-- Model of the verified identity claims the OIDC exchange returns. -/
structure OIDCClaims where
  email : String
  picture : String
deriving Repr

/-- Result of handleOIDCFinish: a re-rendered login page carrying an error,
or a 302 redirect to the sanitized state URI. -/
inductive OIDCFinishResult where
  | renderLogin (err : HTTPError)
  | redirect (url : String)
deriving DecidableEq, Repr

/-- Model of handleOIDCFinish (part_000 lines 79-110). The token exchange,
the user lookup by verified email, the last-login update and session
creation are oracle functions; every failure feeds the error back into
renderLoginPage, and only the all-success path redirects to the sanitized
state query parameter. -/
def handleOIDCFinish (cookieNonce : Option String) (code state : String)
    (exchangeOIDCToken : String → String → Except HTTPError (String × OIDCClaims))
    (getUserByEmail : String → Except HTTPError User)
    (updateUserLogin : Nat → String → Except HTTPError Unit)
    (setSession : User → String → Except HTTPError Unit) : OIDCFinishResult :=
  match cookieNonce with
  | none => OIDCFinishResult.renderLogin { status := 401, message := "users.invalidRequest" }
  | some v =>
    if v = "" then
      OIDCFinishResult.renderLogin { status := 401, message := "users.invalidRequest" }
    else
      match exchangeOIDCToken code v with
      | Except.error e => OIDCFinishResult.renderLogin e
      | Except.ok (oidcToken, claims) =>
        match getUserByEmail claims.email with
        | Except.error e => OIDCFinishResult.renderLogin e
        | Except.ok user =>
          match updateUserLogin user.id claims.picture with
          | Except.error e => OIDCFinishResult.renderLogin e
          | Except.ok _ =>
            match setSession user oidcToken with
            | Except.error e => OIDCFinishResult.renderLogin e
            | Except.ok _ => OIDCFinishResult.redirect (SanitizeURI state)

/-- The fixed 62-character alphanumeric dictionary of
utils.GenerateRandomString. -/
def dictionary : String := "0123456789ABCDEFGHIJKLMNOPQRSTUVWXYZabcdefghijklmnopqrstuvwxyz"

/-- Model of utils.GenerateRandomString (part_000 utils part, lines
242-255). The crypto/rand byte source is an oracle: an error, or the n
bytes (each below 256) it wrote into the buffer. On a read error the
function returns the empty string together with the error; otherwise every
byte b is mapped to the dictionary character at index b mod 62. -/
def GenerateRandomString (n : Nat) (randRead : Except String (List Nat)) :
    String × Option String :=
  match randRead with
  | Except.error e => ("", some e)
  | Except.ok bytes =>
    (String.mk (bytes.map (fun b => dictionary.toList.getD (b % 62) ' ')), none)

/-- Concrete interactive user row matching the worked example in the spec:
one global role permission and one per-resource grant at resource 5. -/
def sampleRow : UserRow :=
  { id := 1
    username := "admin"
    email := some ("admin@example.com")
    name := "Admin"
    rowType := UserType.user
    passwordLogin := false
    password := "secretpw1"
    status := "enabled"
    roleID := 2
    roleName := "Super Admin"
    rolePerms := ["users:manage"]
    listsPermsRaw := some (Except.ok [{ id := 5, permissions := ["list:view"] }]) }

/-- Concrete machine-token user row that carries a stored placeholder
email. -/
def apiRow : UserRow :=
  { id := 7
    username := "token1"
    email := some ("token1@api")
    name := "token1"
    rowType := UserType.api
    passwordLogin := false
    password := "sometoken12345"
    status := "enabled"
    roleID := 3
    roleName := "api role"
    rolePerms := []
    listsPermsRaw := none }

/-- Concrete user row whose raw per-resource permission payload fails to
decode. -/
def badJsonRow : UserRow :=
  { id := 9
    username := "broken"
    email := some ("broken@example.com")
    name := "Broken"
    rowType := UserType.user
    passwordLogin := true
    password := ""
    status := "enabled"
    roleID := 2
    roleName := "Super Admin"
    rolePerms := ["users:manage"]
    listsPermsRaw := some (Except.error ("unexpected end of JSON input")) }

/-- C7: for every fetched user row, the derived HasPassword flag of the
expanded output is true exactly when the stored password credential is
non-empty, and whenever it is true the password-login flag of the output
is forced to true regardless of the flag stored on the row. -/
theorem expandUser_hasPassword (u : UserRow) :
    ((expandUser u).hasPassword = true ↔ u.password ≠ "") ∧
    ((expandUser u).hasPassword = true → (expandUser u).passwordLogin = true) := by
  by_cases h : u.password = ""
  · simp [expandUser, h]
  · simp [expandUser, h]

/-- Witness for C7 at the sample row, whose stored password is non-empty
while its stored password-login flag is false. -/
theorem expandUser_hasPassword_witness :
    (expandUser sampleRow).hasPassword = true ∧
    (expandUser sampleRow).passwordLogin = true := by
  have h := expandUser_hasPassword sampleRow
  have h1 : (expandUser sampleRow).hasPassword = true := h.1.mpr (by decide)
  exact ⟨h1, h.2 h1⟩

/-- C8: for every fetched user row of the machine-token type, the email of
the expanded output is absent, even when a placeholder email was stored. -/
theorem expandUser_api_email_scrubbed (u : UserRow)
    (h : u.rowType = UserType.api) : (expandUser u).email = none := by
  simp [expandUser, h]

/-- Witness for C8 at the API row, which stores a placeholder email. -/
theorem expandUser_api_email_scrubbed_witness :
    apiRow.email = some ("token1@api") ∧ (expandUser apiRow).email = none :=
  ⟨rfl, expandUser_api_email_scrubbed apiRow rfl⟩

/-- C1 (code bug evidence): a failed credential attempt with valid-length
fields whose store verify reports no matching row after 5ms returns the
403 immediately with a zero sleep, so the handler spends 5000000ns, under
the 100ms floor; the padding branch runs only after a successful verify
and even then sleeps elapsedMs nanoseconds rather than milliseconds. -/
theorem doLogin_failed_attempt_below_floor :
    (doLogin 2000 (some ("n1")) "n1" "admin" "password1"
        (Except.error SQLErr.noRows) 5 (Except.ok ())).result
      = Except.error { status := 403, message := "users.invalidLogin" } ∧
    (doLogin 2000 (some ("n1")) "n1" "admin" "password1"
        (Except.error SQLErr.noRows) 5 (Except.ok ())).sleepNs = 0 ∧
    doLoginTotalNs 2000 (some ("n1")) "n1" "admin" "password1"
        (Except.error SQLErr.noRows) 5 (Except.ok ()) = 5000000 ∧
    5000000 < 100000000 := by
  refine ⟨?_, ?_, ?_, by norm_num⟩ <;> rfl

/-- C2 counterexample: a password submission whose form nonce does not
equal the non-empty cookie nonce is neither rejected nor kept away from
the store: the verify-and-fetch query is issued and the login succeeds. -/
theorem doLogin_nonce_mismatch_still_queries :
    (doLogin 2000 (some ("aaaa")) "bbbb" "admin" "password1"
        (Except.ok sampleRow) 5 (Except.ok ())).storeQueried = true ∧
    (doLogin 2000 (some ("aaaa")) "bbbb" "admin" "password1"
        (Except.ok sampleRow) 5 (Except.ok ())).result = Except.ok () :=
  ⟨rfl, rfl⟩

/-- C2 (amended): the password login handler performs no nonce
verification at all — its outcome is identical for any two choices of
cookie and form nonce — and the store is queried exactly when both trimmed
fields pass their length checks. -/
theorem doLogin_ignores_nonce (maxLen : Nat) (c c2 : Option String)
    (f f2 un pw : String) (store : Except SQLErr UserRow) (ms : Nat)
    (ss : Except HTTPError Unit) :
    doLogin maxLen c f un pw store ms ss
      = doLogin maxLen c2 f2 un pw store ms ss ∧
    (doLogin maxLen c f un pw store ms ss).storeQueried
      = (strHasLen (trimSpace un) 3 maxLen && strHasLen (trimSpace pw) 8 maxLen) := by
  refine ⟨rfl, ?_⟩
  by_cases h1 : strHasLen (trimSpace un) 3 maxLen = true
  · by_cases h2 : strHasLen (trimSpace pw) 8 maxLen = true
    · cases hs : LoginUser store with
      | error e => simp [doLogin, h1, h2, hs]
      | ok u =>
        cases ss with
        | error e2 => simp [doLogin, h1, h2, hs]
        | ok _ => simp [doLogin, h1, h2, hs]
    · rw [Bool.not_eq_true] at h2
      simp [doLogin, h1, h2]
  · rw [Bool.not_eq_true] at h1
    simp [doLogin, h1]

/-- Failing a length check is the same as the character count lying
outside the inclusive range. -/
theorem strHasLen_eq_false_iff (s : String) (lo hi : Nat) :
    strHasLen s lo hi = false ↔ s.length < lo ∨ hi < s.length := by
  simp [strHasLen]
  omega

/-- C3: whenever the trimmed username is shorter than 3 characters or
longer than the shared maximum, or the trimmed password is shorter than 8
or longer than that maximum, doLogin returns a 400 invalid-input error and
the verify-and-fetch store query is never issued. -/
theorem doLogin_invalid_input_no_store (maxLen : Nat) (c : Option String)
    (f un pw : String) (store : Except SQLErr UserRow) (ms : Nat)
    (ss : Except HTTPError Unit)
    (h : ((trimSpace un).length < 3 ∨ maxLen < (trimSpace un).length) ∨
         ((trimSpace pw).length < 8 ∨ maxLen < (trimSpace pw).length)) :
    (doLogin maxLen c f un pw store ms ss).storeQueried = false ∧
    ∃ msg, (doLogin maxLen c f un pw store ms ss).result
      = Except.error { status := 400, message := msg } := by
  by_cases h1 : strHasLen (trimSpace un) 3 maxLen = true
  · have h2 : strHasLen (trimSpace pw) 8 maxLen = false := by
      rcases h with hu | hp
      · exact absurd ((strHasLen_eq_false_iff (trimSpace un) 3 maxLen).mpr hu)
          (by simp [h1])
      · exact (strHasLen_eq_false_iff (trimSpace pw) 8 maxLen).mpr hp
    refine ⟨?_, "globals.messages.invalidFields password", ?_⟩ <;>
      simp [doLogin, h1, h2]
  · rw [Bool.not_eq_true] at h1
    refine ⟨?_, "globals.messages.invalidFields username", ?_⟩ <;>
      simp [doLogin, h1]

/-- Witness for C3: a two-character username is rejected with a 400 and no
store query. -/
theorem doLogin_invalid_input_no_store_witness :
    ((trimSpace "ab").length < 3 ∨ (2000:Nat) < (trimSpace "ab").length) ∧
    (doLogin 2000 none "" "ab" "password1"
        (Except.error SQLErr.noRows) 0 (Except.ok ())).storeQueried = false ∧
    ∃ msg, (doLogin 2000 none "" "ab" "password1"
        (Except.error SQLErr.noRows) 0 (Except.ok ())).result
      = Except.error { status := 400, message := msg } := by
  have hlen : ((trimSpace "ab").length < 3 ∨ (2000:Nat) < (trimSpace "ab").length) :=
    Or.inl (by decide)
  exact ⟨hlen, doLogin_invalid_input_no_store 2000 none "" "ab" "password1"
    (Except.error SQLErr.noRows) 0 (Except.ok ()) (Or.inl hlen)⟩

/-- C4: federated-login initiation returns the 401 invalid-request error
unless the nonce cookie is present, non-empty, and exactly equal to the
form nonce; in particular every non-equal pair, including an empty cookie
value against a non-empty form value, is rejected and no redirect to the
identity provider is produced. -/
theorem handleOIDCLogin_nonce_binding (g : String → String → String)
    (cookie : Option String) (f next : String)
    (h : ¬ (cookie = some f ∧ f ≠ "")) :
    handleOIDCLogin g cookie f next
      = OIDCLoginResult.unauthorized ("users.invalidRequest") := by
  cases cookie with
  | none => rfl
  | some v =>
    by_cases hv : v = ""
    · simp [handleOIDCLogin, hv]
    · have hne : v ≠ f := by
        intro he
        exact h ⟨by rw [he], fun hf => hv (by rw [he, hf])⟩
      simp [handleOIDCLogin, hv, hne]

/-- Witness for C4: an empty cookie value against a non-empty form nonce
is rejected. -/
theorem handleOIDCLogin_nonce_binding_witness :
    ¬ ((some ("") : Option String) = some ("bbbb") ∧ "bbbb" ≠ "") ∧
    handleOIDCLogin (fun next nonce => next ++ nonce) (some ("")) "bbbb" "/"
      = OIDCLoginResult.unauthorized ("users.invalidRequest") :=
  ⟨by decide, handleOIDCLogin_nonce_binding _ (some ("")) "bbbb" "/" (by decide)⟩

/-- C9: when the random byte source supplies its n bytes without error,
GenerateRandomString returns no error and a string of length exactly n
whose every character belongs to the fixed 62-character alphanumeric
dictionary; when the byte source errors, it returns the empty string
together with that error. -/
theorem GenerateRandomString_spec (n : Nat)
    (randRead : Except String (List Nat))
    (hlen : ∀ bs, randRead = Except.ok bs → bs.length = n) :
    (∀ e, randRead = Except.error e →
      GenerateRandomString n randRead = ("", some e)) ∧
    (∀ bs, randRead = Except.ok bs →
      (GenerateRandomString n randRead).2 = none ∧
      (GenerateRandomString n randRead).1.length = n ∧
      ∀ c ∈ (GenerateRandomString n randRead).1.toList,
        c ∈ dictionary.toList) := by
  constructor
  · intro e he
    rw [he]
    rfl
  · intro bs hbs
    have hln := hlen bs hbs
    subst hbs
    refine ⟨rfl, ?_, ?_⟩
    · show (bs.map _).length = n
      rw [List.length_map]
      exact hln
    · intro c hc
      rw [show (GenerateRandomString n (Except.ok bs)).1.toList
          = bs.map (fun b => dictionary.toList.getD (b % 62) ' ') from rfl] at hc
      rcases List.mem_map.mp hc with ⟨b, _, hbc⟩
      have hlt : b % 62 < dictionary.toList.length := by
        have : b % 62 < 62 := Nat.mod_lt _ (by norm_num)
        simpa using this
      rw [← hbc, List.getD_eq_getElem _ _ hlt]
      exact List.getElem_mem hlt

/-- Witness for C9 at three concrete bytes. -/
theorem GenerateRandomString_spec_witness :
    (GenerateRandomString 3 (Except.ok [0, 61, 100])).2 = none ∧
    (GenerateRandomString 3 (Except.ok [0, 61, 100])).1.length = 3 ∧
    ∀ c ∈ (GenerateRandomString 3 (Except.ok [0, 61, 100])).1.toList,
      c ∈ dictionary.toList :=
  (GenerateRandomString_spec 3 (Except.ok [0, 61, 100])
    (fun bs h => by cases h; rfl)).2 [0, 61, 100] rfl

/-- C10: the multi-user fetch getUsers errors whenever the select returns
zero rows, so its success list is never empty and the element-0 access in
GetUser can never go out of bounds, for any query outcome. -/
theorem GetUser_no_out_of_bounds
    (q : Nat → String → String → Except SQLErr (List UserRow))
    (id : Nat) (username email : String) :
    (∀ l, getUsers (q id username email.toLower) = Except.ok l → l ≠ []) ∧
    GetUser q id username email ≠ Except.error CoreErr.outOfBounds := by
  have key : ∀ l, getUsers (q id username email.toLower) = Except.ok l → l ≠ [] := by
    intro l hl
    cases hq : q id username email.toLower with
    | error e => rw [hq] at hl; cases hl
    | ok rows =>
      rw [hq] at hl
      cases rows with
      | nil => cases hl
      | cons a t =>
        have : Except.ok ((a :: t).map expandUser) = Except.ok l := hl
        injection this with h2
        rw [← h2]
        simp
  refine ⟨key, ?_⟩
  unfold GetUser
  cases hg : getUsers (q id username email.toLower) with
  | error e => simp
  | ok out =>
    cases out with
    | nil => exact absurd rfl (key [] hg)
    | cons u t => simp

/-- Witness for C10 at a constant one-row query. -/
theorem GetUser_no_out_of_bounds_witness :
    GetUser (fun _ _ _ => Except.ok [sampleRow]) 1 "" ""
      ≠ Except.error CoreErr.outOfBounds ∧
    [expandUser sampleRow] ≠ ([] : List User) :=
  ⟨(GetUser_no_out_of_bounds (fun _ _ _ => Except.ok [sampleRow]) 1 "" "").2,
   (GetUser_no_out_of_bounds (fun _ _ _ => Except.ok [sampleRow]) 1 "" "").1
     [expandUser sampleRow] rfl⟩

/-- C5: in federated-login completion, a missing or empty nonce cookie
yields a re-rendered login page carrying the 401 invalid-request error;
a token-exchange failure, a user-lookup miss on the verified email, a
last-login update failure and a session-creation failure each yield a
re-rendered login page carrying exactly that error; and a redirect is
produced only when every stage succeeds, in which case it targets the
sanitized state URI. -/
theorem handleOIDCFinish_error_funnel (cookie : Option String)
    (code state : String)
    (ex : String → String → Except HTTPError (String × OIDCClaims))
    (gu : String → Except HTTPError User)
    (ul : Nat → String → Except HTTPError Unit)
    (ss : User → String → Except HTTPError Unit) :
    ((cookie = none ∨ cookie = some "") →
      handleOIDCFinish cookie code state ex gu ul ss
        = OIDCFinishResult.renderLogin { status := 401, message := "users.invalidRequest" }) ∧
    (∀ v e, cookie = some v → v ≠ "" → ex code v = Except.error e →
      handleOIDCFinish cookie code state ex gu ul ss
        = OIDCFinishResult.renderLogin e) ∧
    (∀ v tok claims e, cookie = some v → v ≠ "" →
      ex code v = Except.ok (tok, claims) → gu claims.email = Except.error e →
      handleOIDCFinish cookie code state ex gu ul ss
        = OIDCFinishResult.renderLogin e) ∧
    (∀ v tok claims user e, cookie = some v → v ≠ "" →
      ex code v = Except.ok (tok, claims) → gu claims.email = Except.ok user →
      ul user.id claims.picture = Except.error e →
      handleOIDCFinish cookie code state ex gu ul ss
        = OIDCFinishResult.renderLogin e) ∧
    (∀ v tok claims user e, cookie = some v → v ≠ "" →
      ex code v = Except.ok (tok, claims) → gu claims.email = Except.ok user →
      ul user.id claims.picture = Except.ok () → ss user tok = Except.error e →
      handleOIDCFinish cookie code state ex gu ul ss
        = OIDCFinishResult.renderLogin e) ∧
    (∀ url, handleOIDCFinish cookie code state ex gu ul ss
        = OIDCFinishResult.redirect url →
      url = SanitizeURI state ∧
      ∃ v tok claims user, cookie = some v ∧ v ≠ "" ∧
        ex code v = Except.ok (tok, claims) ∧
        gu claims.email = Except.ok user ∧
        ul user.id claims.picture = Except.ok () ∧
        ss user tok = Except.ok ()) := by
  refine ⟨?_, ?_, ?_, ?_, ?_, ?_⟩
  · rintro (hc | hc) <;> subst hc <;> simp [handleOIDCFinish]
  · intro v e hc hv hex
    subst hc
    simp [handleOIDCFinish, hv, hex]
  · intro v tok claims e hc hv hex hgu
    subst hc
    simp [handleOIDCFinish, hv, hex, hgu]
  · intro v tok claims user e hc hv hex hgu hul
    subst hc
    simp [handleOIDCFinish, hv, hex, hgu, hul]
  · intro v tok claims user e hc hv hex hgu hul hss
    subst hc
    simp [handleOIDCFinish, hv, hex, hgu, hul, hss]
  · intro url hred
    cases hc : cookie with
    | none => rw [hc] at hred; simp [handleOIDCFinish] at hred
    | some v =>
      subst hc
      by_cases hv : v = ""
      · simp [handleOIDCFinish, hv] at hred
      · cases hex : ex code v with
        | error e => simp [handleOIDCFinish, hv, hex] at hred
        | ok p =>
          obtain ⟨tok, claims⟩ := p
          cases hgu : gu claims.email with
          | error e => simp [handleOIDCFinish, hv, hex, hgu] at hred
          | ok user =>
            cases hul : ul user.id claims.picture with
            | error e => simp [handleOIDCFinish, hv, hex, hgu, hul] at hred
            | ok u0 =>
              cases u0
              cases hss : ss user tok with
              | error e => simp [handleOIDCFinish, hv, hex, hgu, hul, hss] at hred
              | ok u1 =>
                cases u1
                simp [handleOIDCFinish, hv, hex, hgu, hul, hss] at hred
                exact ⟨hred.symm, v, tok, claims, user, rfl, hv, hex, hgu, hul, hss⟩

/-- Witness for C5: with no nonce cookie the completion handler re-renders
the login page with the 401 invalid-request error. -/
theorem handleOIDCFinish_error_funnel_witness :
    handleOIDCFinish none "code1" "/lists"
      (fun _ _ => Except.error { status := 500, message := "exchange failed" })
      (fun _ => Except.error { status := 500, message := "no user" })
      (fun _ _ => Except.ok ()) (fun _ _ => Except.ok ())
      = OIDCFinishResult.renderLogin { status := 401, message := "users.invalidRequest" } :=
  (handleOIDCFinish_error_funnel none "code1" "/lists" _ _ _ _).1 (Or.inl rfl)

/-- Membership after folding setInsert over a list: an element is present
exactly when it was in the accumulator or in the list. -/
theorem mem_foldl_setInsert (l : List String) (acc : List String) (x : String) :
    x ∈ l.foldl setInsert acc ↔ x ∈ acc ∨ x ∈ l := by
  induction l generalizing acc with
  | nil => simp
  | cons p rest ih =>
    rw [List.foldl_cons, ih]
    unfold setInsert
    by_cases hp : p ∈ acc
    · rw [if_pos hp]
      simp only [List.mem_cons]
      constructor
      · rintro (h | h) <;> tauto
      · rintro (h | h | h)
        · tauto
        · subst h; tauto
        · tauto
    · rw [if_neg hp]
      simp only [List.mem_append, List.mem_singleton, List.mem_cons]
      tauto

/-- Membership in the built global permission set coincides with
membership in the flat permission list. -/
theorem mem_buildSet (l : List String) (x : String) :
    x ∈ buildSet l ↔ x ∈ l := by
  rw [buildSet, mem_foldl_setInsert]
  simp

/-- Lookup after a map insertion: the inserted key now maps to the new
value and every other key is unchanged. -/
theorem mapLookup_mapInsert (m : List (Nat × List String)) (k k2 : Nat)
    (v : List String) :
    mapLookup (mapInsert m k v) k2 = if k = k2 then some v else mapLookup m k2 := by
  induction m with
  | nil => simp [mapInsert, mapLookup]
  | cons hd t ih =>
    obtain ⟨k3, v3⟩ := hd
    unfold mapInsert
    by_cases hk : k3 = k
    · subst hk
      by_cases hk2 : k3 = k2
      · simp [mapLookup, hk2]
      · simp [mapLookup, hk2]
    · rw [if_neg hk]
      by_cases hk3 : k3 = k2
      · have hne : ¬ (k = k2) := fun he => hk (by rw [he, hk3])
        simp [mapLookup, hk3, hne]
      · simp [mapLookup, hk3, ih]

/-- Folding the grant-insertion loop over grants whose identifiers avoid a
key leaves that key untouched. -/
theorem mapLookup_foldl_notmem (l : List ListPermission)
    (acc : List (Nat × List String)) (k : Nat)
    (h : k ∉ l.map ListPermission.id) :
    mapLookup (l.foldl (fun m p => mapInsert m p.id (buildSet p.permissions)) acc) k
      = mapLookup acc k := by
  induction l generalizing acc with
  | nil => rfl
  | cons p rest ih =>
    rw [List.foldl_cons]
    have hp : ¬ (p.id = k) := fun he => h (by simp [he])
    rw [ih _ (fun hm => h (by simp [hm]))]
    rw [mapLookup_mapInsert, if_neg hp]

/-- Lookup of the identifier of a grant after the loop, when grant
identifiers are pairwise distinct: the grant's own permission set. -/
theorem mapLookup_foldl_nodup (l : List ListPermission)
    (acc : List (Nat × List String)) (g : ListPermission)
    (hg : g ∈ l) (hnd : (l.map ListPermission.id).Nodup) :
    mapLookup (l.foldl (fun m p => mapInsert m p.id (buildSet p.permissions)) acc) g.id
      = some (buildSet g.permissions) := by
  induction l generalizing acc with
  | nil => cases hg
  | cons p rest ih =>
    rw [List.map_cons, List.nodup_cons] at hnd
    rw [List.foldl_cons]
    rcases List.mem_cons.mp hg with he | hm
    · subst he
      rw [mapLookup_foldl_notmem _ _ _ hnd.1]
      rw [mapLookup_mapInsert, if_pos rfl]
    · exact ih _ hm hnd.2

/-- A key resolves in the folded map exactly when it resolved in the
accumulator or appears among the grant identifiers. -/
theorem mapLookup_foldl_isSome (l : List ListPermission)
    (acc : List (Nat × List String)) (k : Nat) :
    (mapLookup (l.foldl (fun m p => mapInsert m p.id (buildSet p.permissions)) acc) k).isSome
      ↔ (mapLookup acc k).isSome ∨ k ∈ l.map ListPermission.id := by
  induction l generalizing acc with
  | nil => simp
  | cons p rest ih =>
    rw [List.foldl_cons, ih, mapLookup_mapInsert]
    by_cases hp : p.id = k
    · simp [hp]
    · simp only [if_neg hp, List.map_cons, List.mem_cons]
      constructor
      · rintro (h | h) <;> tauto
      · rintro (h | h | h)
        · tauto
        · exact absurd h.symm hp
        · tauto

/-- C6: for every fetched user row, membership in the built global
permission set coincides with the flat role permission list; the resource
map resolves exactly the identifiers of the parsed grants and, when those
identifiers are pairwise distinct, maps each grant identifier to exactly
that grant's permission strings; and a raw-payload decode failure is
logged, leaves the user with no per-resource grants, and still lets the
rest of the user record load. -/
theorem expandUser_permission_expansion (u : UserRow) :
    (∀ p, p ∈ (expandUser u).permissionsMap ↔ p ∈ u.rolePerms) ∧
    (∀ k, (mapLookup (expandUser u).listPermissionsMap k).isSome
        ↔ k ∈ (parsedListPerms u).map ListPermission.id) ∧
    (((parsedListPerms u).map ListPermission.id).Nodup →
      ∀ g ∈ parsedListPerms u,
        ∃ v, mapLookup (expandUser u).listPermissionsMap g.id = some v ∧
          ∀ s, s ∈ v ↔ s ∈ g.permissions) ∧
    (∀ e, u.listsPermsRaw = some (Except.error e) →
      (expandUser u).loggedPermParseError = true ∧
      (expandUser u).listPermissionsMap = [] ∧
      (expandUser u).role.lists = [] ∧
      getUsers (Except.ok [u]) = Except.ok [expandUser u]) := by
  refine ⟨?_, ?_, ?_, ?_⟩
  · intro p
    show p ∈ buildSet u.rolePerms ↔ p ∈ u.rolePerms
    exact mem_buildSet _ _
  · intro k
    show (mapLookup (buildListPermsMap (parsedListPerms u)) k).isSome ↔ _
    rw [buildListPermsMap, mapLookup_foldl_isSome]
    simp [mapLookup]
  · intro hnd g hg
    refine ⟨buildSet g.permissions, ?_, fun s => mem_buildSet _ _⟩
    show mapLookup (buildListPermsMap (parsedListPerms u)) g.id = _
    rw [buildListPermsMap]
    exact mapLookup_foldl_nodup _ _ _ hg hnd
  · intro e he
    refine ⟨?_, ?_, ?_, rfl⟩
    · simp [expandUser, permParseLogged, he]
    · show buildListPermsMap (parsedListPerms u) = []
      simp [parsedListPerms, he, buildListPermsMap]
    · show parsedListPerms u = []
      simp [parsedListPerms, he]

/-- Witness for C6 at the sample row: the global set holds the single role
permission, the resource map resolves key 5 to exactly the single grant
permission, and no other key resolves. -/
theorem expandUser_permission_expansion_witness :
    ("users:manage" ∈ (expandUser sampleRow).permissionsMap) ∧
    (∃ v, mapLookup (expandUser sampleRow).listPermissionsMap 5 = some v ∧
      ∀ s, s ∈ v ↔ s ∈ ["list:view"]) ∧
    ¬ (mapLookup (expandUser sampleRow).listPermissionsMap 6).isSome := by
  have h := expandUser_permission_expansion sampleRow
  refine ⟨(h.1 "users:manage").mpr (by decide), ?_, ?_⟩
  · exact h.2.2.1 (by decide) { id := 5, permissions := ["list:view"] } (by decide)
  · intro hs
    have := (h.2.1 6).mp hs
    revert this
    decide

end Listmonk
